import Mathlib

/-
Verification of the Resume ATS Score Checker repository.

Python strings are modelled as `List Char`.  The stdlib call `json.loads`
is modelled by an executable recursive-descent parser over a `Json` value
type; JSON numbers are modelled as integers (the fragment the program's
responses exercise), and the handful of places where the Python code could
raise (int() on a non-number, slicing a dict, iterating a non-iterable,
str-joining a non-string) are modelled by `Option`, with `none` standing
for an exception that escapes to the enclosing handler.
-/

namespace ResumeATS

/-- Python's notion of whitespace for `str.strip` and the regex class \s
(ASCII range; the inputs of interest contain no exotic Unicode spaces). -/
def pyIsSpace (c : Char) : Bool :=
  c == ' ' || c == '\t' || c == '\n' || c == '\r' || c == '\x0b' || c == '\x0c'

/-- Python `str.lower()` (ASCII letters). -/
def pyLower (s : List Char) : List Char := s.map Char.toLower

/-- Python `str.upper()` (ASCII letters). -/
def pyUpper (s : List Char) : List Char := s.map Char.toUpper

/-- Python `str.strip()`. -/
def pyStrip (s : List Char) : List Char :=
  ((s.dropWhile pyIsSpace).reverse.dropWhile pyIsSpace).reverse

/-- Python's substring test `needle in hay`. -/
def containsSub (needle : List Char) : List Char → Bool
  | [] => needle.isEmpty
  | c :: t => needle.isPrefixOf (c :: t) || containsSub needle t

/-- Index of the first occurrence of `needle`, counting from `i`. -/
def findSubAux (needle : List Char) : List Char → Nat → Option Nat
  | [], i => if needle.isEmpty then some i else none
  | c :: t, i => if needle.isPrefixOf (c :: t) then some i else findSubAux needle t (i + 1)

/-- Python `str.find(needle)` (as `Option` instead of -1). -/
def findSub (needle hay : List Char) : Option Nat := findSubAux needle hay 0

/-- Python `str.find(ch)` for a single character. -/
def pyFindChar (ch : Char) : List Char → Option Nat
  | [] => none
  | c :: t => if c == ch then some 0 else (pyFindChar ch t).map (· + 1)

/-- Python `str.rfind(ch)` for a single character. -/
def pyRFindChar (ch : Char) (s : List Char) : Option Nat :=
  (pyFindChar ch s.reverse).map (fun k => s.length - 1 - k)

/-- Python `str.split(ch)`: `""` splits to `[""]`, separators are not kept. -/
def splitChar (ch : Char) : List Char → List (List Char)
  | [] => [[]]
  | c :: t =>
      if c == ch then [] :: splitChar ch t
      else
        match splitChar ch t with
        | [] => [[c]]
        | h :: r => (c :: h) :: r

/-- Python `sep.join(parts)` specialised to list-of-chars parts. -/
def joinWith (sep : List Char) : List (List Char) → List Char
  | [] => []
  | [x] => x
  | x :: y :: t => x ++ sep ++ joinWith sep (y :: t)

/-- Decimal digits of a natural number (fuelled division loop). -/
def natDigitsAux : Nat → Nat → List Char
  | 0, _ => []
  | fuel + 1, n =>
      if n < 10 then [Char.ofNat (48 + n)]
      else natDigitsAux fuel (n / 10) ++ [Char.ofNat (48 + n % 10)]

/-- Python `str(n)` for a natural number. -/
def natStr (n : Nat) : List Char := natDigitsAux (n + 1) n

/-- Python `str(i)` for an integer. -/
def intStr (i : Int) : List Char :=
  if i < 0 then '-' :: natStr i.natAbs else natStr i.natAbs

/-- Numeric value of a digit string. -/
def digitsVal (l : List Char) : Nat :=
  l.foldl (fun a c => a * 10 + (c.toNat - 48)) 0

/-- JSON values as produced by `json.loads` (numbers restricted to the
integer fragment the program's schema uses). -/
inductive Json where
  | null : Json
  | bool : Bool → Json
  | num : Int → Json
  | str : List Char → Json
  | arr : List Json → Json
  | obj : List (List Char × Json) → Json

/-- JSON insignificant whitespace. -/
def jsonWs (c : Char) : Bool := c == ' ' || c == '\t' || c == '\n' || c == '\r'

def skipWs (s : List Char) : List Char := s.dropWhile jsonWs

def hexVal (c : Char) : Option Nat :=
  if '0' ≤ c ∧ c ≤ '9' then some (c.toNat - 48)
  else if 'a' ≤ c ∧ c ≤ 'f' then some (c.toNat - 87)
  else if 'A' ≤ c ∧ c ≤ 'F' then some (c.toNat - 55)
  else none

/-- JSON string body after the opening quote: content and remaining input. -/
def parseJStr : List Char → Option (List Char × List Char)
  | [] => none
  | c :: t =>
      if c == '"' then some ([], t)
      else if c == '\\' then
        match t with
        | [] => none
        | e :: t2 =>
            if e == 'u' then
              match t2 with
              | a :: b :: c3 :: d :: t3 =>
                  match hexVal a, hexVal b, hexVal c3, hexVal d with
                  | some x, some y, some z, some w =>
                      match parseJStr t3 with
                      | some (rest, rem) =>
                          some (Char.ofNat (((x * 16 + y) * 16 + z) * 16 + w) :: rest, rem)
                      | none => none
                  | _, _, _, _ => none
              | _ => none
            else
              match
                (if e == '"' then some '"'
                 else if e == '\\' then some '\\'
                 else if e == '/' then some '/'
                 else if e == 'n' then some '\n'
                 else if e == 't' then some '\t'
                 else if e == 'r' then some '\r'
                 else if e == 'b' then some (Char.ofNat 8)
                 else if e == 'f' then some (Char.ofNat 12)
                 else none) with
              | some ch =>
                  match parseJStr t2 with
                  | some (rest, rem) => some (ch :: rest, rem)
                  | none => none
              | none => none
      else if c.toNat < 32 then none
      else
        match parseJStr t with
        | some (rest, rem) => some (c :: rest, rem)
        | none => none

def parseDigitsAux : List Char → Nat → (Nat × List Char)
  | [], acc => (acc, [])
  | c :: t, acc =>
      if c.isDigit then parseDigitsAux t (acc * 10 + (c.toNat - 48)) else (acc, c :: t)

/-- Integer part of a JSON number: `0`, or a nonzero digit then digits. -/
def parseIntPart : List Char → Option (Nat × List Char)
  | [] => none
  | c :: t =>
      if c == '0' then some (0, t)
      else if c.isDigit then some (parseDigitsAux t (c.toNat - 48))
      else none

/-- True when a fraction or exponent follows (outside the integer fragment). -/
def numTail : List Char → Bool
  | c :: _ => c == '.' || c == 'e' || c == 'E'
  | [] => false

def parseNum : List Char → Option (Int × List Char)
  | '-' :: t =>
      match parseIntPart t with
      | some (n, rest) => if numTail rest then none else some (-(n : Int), rest)
      | none => none
  | s =>
      match parseIntPart s with
      | some (n, rest) => if numTail rest then none else some ((n : Int), rest)
      | none => none

mutual

/-- Recursive-descent JSON value parser (fuelled). -/
def parseVal : Nat → List Char → Option (Json × List Char)
  | 0, _ => none
  | Nat.succ fuel, s0 =>
      match skipWs s0 with
      | [] => none
      | c :: t =>
          if c == '"' then
            match parseJStr t with
            | some (content, rem) => some (Json.str content, rem)
            | none => none
          else if c == '[' then
            match skipWs t with
            | ']' :: r => some (Json.arr [], r)
            | t1 =>
                match parseItems fuel t1 with
                | some (items, rem) => some (Json.arr items, rem)
                | none => none
          else if c == '\x7b' then
            match skipWs t with
            | [] => none
            | c2 :: r =>
                if c2 == '\x7d' then some (Json.obj [], r)
                else
                  match parseMembers fuel (c2 :: r) with
                  | some (kvs, rem) => some (Json.obj kvs, rem)
                  | none => none
          else if ("true".toList).isPrefixOf (c :: t) then some (Json.bool true, (c :: t).drop 4)
          else if ("false".toList).isPrefixOf (c :: t) then some (Json.bool false, (c :: t).drop 5)
          else if ("null".toList).isPrefixOf (c :: t) then some (Json.null, (c :: t).drop 4)
          else
            match parseNum (c :: t) with
            | some (n, rem) => some (Json.num n, rem)
            | none => none

/-- Comma-separated array items up to the closing bracket. -/
def parseItems : Nat → List Char → Option (List Json × List Char)
  | 0, _ => none
  | Nat.succ fuel, s =>
      match parseVal fuel s with
      | none => none
      | some (v, rem) =>
          match skipWs rem with
          | [] => none
          | c :: r =>
              if c == ',' then
                match parseItems fuel r with
                | some (vs, rem2) => some (v :: vs, rem2)
                | none => none
              else if c == ']' then some ([v], r)
              else none

/-- Comma-separated object members up to the closing brace. -/
def parseMembers : Nat → List Char → Option (List (List Char × Json) × List Char)
  | 0, _ => none
  | Nat.succ fuel, s =>
      match skipWs s with
      | [] => none
      | c :: t =>
          if c == '"' then
            match parseJStr t with
            | none => none
            | some (key, rem) =>
                match skipWs rem with
                | [] => none
                | c2 :: r2 =>
                    if c2 == ':' then
                      match parseVal fuel r2 with
                      | none => none
                      | some (v, rem2) =>
                          match skipWs rem2 with
                          | [] => none
                          | c3 :: r3 =>
                              if c3 == ',' then
                                match parseMembers fuel r3 with
                                | some (kvs, rem3) => some ((key, v) :: kvs, rem3)
                                | none => none
                              else if c3 == '\x7d' then some ([(key, v)], r3)
                              else none
                    else none
          else none

end

/-- The model of `json.loads`: parse one value, allow trailing whitespace
only, fail otherwise.  Fuel `2 * length + 2` dominates the recursion depth. -/
def json_loads (s : List Char) : Option Json :=
  match parseVal (2 * s.length + 2) s with
  | some (v, rem) => if (skipWs rem).isEmpty then some v else none
  | none => none

/-- Python `dict.get(k, d)`; `json.loads` keeps the last of duplicate keys. -/
def objGetD (kvs : List (List Char × Json)) (k : List Char) (d : Json) : Json :=
  match kvs.reverse.find? (fun p => p.1 == k) with
  | some p => p.2
  | none => d

/-- Python `int(s)` on a string: strip, optional sign, all digits. -/
def parseIntFromStr (s : List Char) : Option Int :=
  match pyStrip s with
  | '-' :: d => if !d.isEmpty && d.all Char.isDigit then some (-(digitsVal d : Int)) else none
  | '+' :: d => if !d.isEmpty && d.all Char.isDigit then some ((digitsVal d : Int)) else none
  | d => if !d.isEmpty && d.all Char.isDigit then some ((digitsVal d : Int)) else none

/-- Python `int(v)` on a JSON value; `none` models the raised TypeError. -/
def pyInt : Json → Option Int
  | .num n => some n
  | .bool b => some (if b then 1 else 0)
  | .str s => parseIntFromStr s
  | _ => none

/-- Python `v[:n]`; slicing works on lists and strings, raises otherwise. -/
def pySlice (n : Nat) : Json → Option Json
  | .arr l => some (.arr (l.take n))
  | .str s => some (.str (s.take n))
  | _ => none

/-- Python `bool(v)` truthiness of a JSON value. -/
def pyTruthy : Json → Bool
  | .null => false
  | .bool b => b
  | .num n => n != 0
  | .str s => !s.isEmpty
  | .arr l => !l.isEmpty
  | .obj kvs => !kvs.isEmpty

/-- Iterating a JSON value with `for`: lists yield elements, strings yield
one-character strings, dicts yield their keys; the rest raises. -/
def pyIterElems : Json → Option (List Json)
  | .arr l => some l
  | .str s => some (s.map (fun c => Json.str [c]))
  | .obj kvs => some (kvs.map (fun p => Json.str p.1))
  | _ => none

/-- The single-quote character used by Python repr of strings. -/
def quoteChar : Char := Char.ofNat 39

mutual

/-- Python `repr` of a JSON-parsed value (string escapes inside repr are
not reproduced; no theorem depends on them). -/
def pyRepr : Json → List Char
  | .null => ("None").toList
  | .bool b => if b then ("True").toList else ("False").toList
  | .num n => intStr n
  | .str s => quoteChar :: s ++ [quoteChar]
  | .arr l => '[' :: joinWith ((", ").toList) (pyReprList l) ++ [']']
  | .obj kvs => '\x7b' :: joinWith ((", ").toList) (pyReprKvs kvs) ++ ['\x7d']

def pyReprList : List Json → List (List Char)
  | [] => []
  | v :: t => pyRepr v :: pyReprList t

def pyReprKvs : List (List Char × Json) → List (List Char)
  | [] => []
  | p :: t =>
      (quoteChar :: p.1 ++ [quoteChar] ++ (": ").toList ++ pyRepr p.2) :: pyReprKvs t

end

/-- Python `str(v)` of a JSON-parsed value. -/
def pyStr : Json → List Char
  | .str s => s
  | v => pyRepr v

/-- `Option`-valued `List.mapM`, written out so induction is direct. -/
def optMapM (f : α → Option β) : List α → Option (List β)
  | [] => some []
  | a :: t =>
      match f a, optMapM f t with
      | some b, some r => some (b :: r)
      | _, _ => none

/-- The fixed-shape analysis record built by `analyze_resume` on the JSON
success path (src/utils/llm_client.py lines 124-138).  `ats_score` is the
clamped integer; the remaining fields keep their dynamic JSON values. -/
structure AnalysisResult where
  ats_score : Int
  score_summary : Json
  matched_keywords : Json
  missing_keywords : Json
  text_replacements : Json
  detailed_suggestions : Json
  score_breakdown : Json
  score_explanation : Json
  next_steps : Json
  suggestions : Json
  feedback : Json

/-- One legacy suggestion string per detailed-suggestion item:
`f"{item.get('category', 'General')}: {item.get('solution', item.get('suggestion', str(item)))}"`;
`none` models the AttributeError raised when the item is not a dict. -/
def legacyEntry : Json → Option (List Char)
  | .obj kvs =>
      some (pyStr (objGetD kvs (("category").toList) (.str (("General").toList)))
            ++ ((": ").toList)
            ++ pyStr (objGetD kvs (("solution").toList)
                        (objGetD kvs (("suggestion").toList) (.str (pyRepr (Json.obj kvs))))))
  | _ => none

/-- The legacy `suggestions` list-comprehension over the raw (uncapped)
`detailed_suggestions` value; iterating a non-iterable or hitting a
non-dict item raises (`none`). -/
def legacyList : Json → Option (List (List Char))
  | .arr items => optMapM legacyEntry items
  | .str s => if s.isEmpty then some [] else none
  | .obj kvs => if kvs.isEmpty then some [] else none
  | _ => none

/-- The `validated_result` dict of `analyze_resume` (lines 124-138): field
reads with defaults, score clamp, list slicing, legacy suggestions.
`none` models an exception escaping to the outer handler. -/
def validated_result (j : Json) : Option AnalysisResult :=
  match j with
  | .obj kvs =>
      (pyInt (objGetD kvs (("ats_score").toList) (.num 0))).bind fun sc =>
      (pySlice 15 (objGetD kvs (("matched_keywords").toList) (.arr []))).bind fun mk =>
      (pySlice 15 (objGetD kvs (("missing_keywords").toList) (.arr []))).bind fun ms =>
      (pySlice 10 (objGetD kvs (("text_replacements").toList) (.arr []))).bind fun tr =>
      (pySlice 10 (objGetD kvs (("detailed_suggestions").toList) (.arr []))).bind fun ds =>
      (legacyList (objGetD kvs (("detailed_suggestions").toList) (.arr []))).bind fun lg =>
          some { ats_score := min 100 (max 0 sc),
                 score_summary := objGetD kvs (("score_summary").toList)
                                    (.str (("Analysis completed").toList)),
                 matched_keywords := mk,
                 missing_keywords := ms,
                 text_replacements := tr,
                 detailed_suggestions := ds,
                 score_breakdown := objGetD kvs (("score_breakdown").toList) (.obj []),
                 score_explanation := objGetD kvs (("score_explanation").toList)
                                        (.str (("Score analysis not available.").toList)),
                 next_steps := objGetD kvs (("next_steps").toList)
                                 (.str (("Next steps not available.").toList)),
                 suggestions := .arr (lg.map Json.str),
                 feedback := objGetD kvs (("score_explanation").toList)
                               (.str (("Analysis completed successfully.").toList)) }
  | _ => none

/-- The hardcoded sample result returned when the outbound call (or any
step inside the outer try) raises (src/utils/llm_client.py lines 146-181). -/
def sample_result : AnalysisResult :=
  { ats_score := 65,
    score_summary := .str (("Analysis completed with fallback data due to API issues").toList),
    matched_keywords := .arr [.str (("Python").toList), .str (("Machine Learning").toList),
                              .str (("Data Analysis").toList)],
    missing_keywords := .arr [.str (("AWS").toList), .str (("Docker").toList),
                              .str (("Kubernetes").toList)],
    text_replacements := .arr [.obj
      [((("section").toList), .str (("Experience").toList)),
       ((("original_text").toList), .str (("Worked on projects").toList)),
       ((("improved_text").toList),
        .str (("Developed and deployed 3+ projects using Python and machine learning frameworks").toList)),
       ((("reason").toList),
        .str (("Added specific technologies and quantified achievements").toList))]],
    detailed_suggestions := .arr [.obj
      [((("priority").toList), .str (("High").toList)),
       ((("category").toList), .str (("Keywords").toList)),
       ((("issue").toList), .str (("Missing key technologies from job description").toList)),
       ((("solution").toList),
        .str (("Add cloud technologies and DevOps tools to skills section").toList)),
       ((("expected_impact").toList), .str (("Improve ATS matching by 15-20 points").toList))]],
    score_breakdown := .obj
      [((("keywords").toList), .num 15), ((("experience").toList), .num 18),
       ((("skills").toList), .num 14), ((("education").toList), .num 10),
       ((("formatting").toList), .num 8)],
    score_explanation := .str (("Fallback analysis due to API issues. Keywords (15/25): Basic coverage. Experience (18/25): Relevant but needs metrics. Skills (14/20): Good foundation. Education (10/15): Adequate. Formatting (8/15): Could be improved.").toList),
    next_steps := .str (("1. Add missing keywords from job description. 2. Quantify achievements with specific numbers. 3. Improve resume formatting and structure.").toList),
    suggestions := .arr [.str (("Add more relevant keywords").toList),
                         .str (("Quantify your achievements").toList),
                         .str (("Improve formatting").toList)],
    feedback := .str (("Analysis completed with fallback data due to technical issues.").toList) }

/-- The partial record returned by `parse_fallback_response` (only these
five keys are populated by the source). -/
structure FallbackResult where
  ats_score : Int
  matched_keywords : List (List Char)
  missing_keywords : List (List Char)
  suggestions : List (List Char)
  feedback : List Char
deriving DecidableEq

/-- The fallback scanner's active collection mode. -/
inductive Mode where
  | matched : Mode
  | missing : Mode
  | sugg : Mode
deriving DecidableEq

/-- Scanner state: active mode and the three collected lists. -/
structure ScanSt where
  sec : Option Mode
  matched : List (List Char)
  missing : List (List Char)
  sugg : List (List Char)
deriving DecidableEq

/-- The source's bullet-marker string literal is the UTF-8 encoding of the
bullet read back as Latin-1/cp1252, i.e. the three characters U+00E2
U+20AC U+00A2 — not the true bullet U+2022. -/
def mojibakeBullet : List Char := [Char.ofNat 0xE2, Char.ofNat 0x20AC, Char.ofNat 0xA2]

/-- The true bullet character U+2022 emitted by `generate_text_report`. -/
def bulletChar : Char := Char.ofNat 0x2022

/-- One iteration of the line loop in `parse_fallback_response`
(src/utils/llm_client.py lines 207-222). -/
def scanLine (st : ScanSt) (raw : List Char) : ScanSt :=
  let line := pyStrip raw
  let low := pyLower line
  if containsSub (("matched").toList) low && containsSub (("keyword").toList) low then
    { st with sec := some .matched }
  else if containsSub (("missing").toList) low && containsSub (("keyword").toList) low then
    { st with sec := some .missing }
  else if containsSub (("suggestion").toList) low || containsSub (("recommend").toList) low then
    { st with sec := some .sugg }
  else if mojibakeBullet.isPrefixOf line || (['-']).isPrefixOf line || (['*']).isPrefixOf line then
    let item := pyStrip (line.drop 1)
    match st.sec with
    | some .matched => if st.matched.length < 10 then { st with matched := st.matched ++ [item] } else st
    | some .missing => if st.missing.length < 10 then { st with missing := st.missing ++ [item] } else st
    | some .sugg => if st.sugg.length < 8 then { st with sugg := st.sugg ++ [item] } else st
    | none => st
  else st

/-- First maximal digit run reachable without crossing a newline
(the regex fragment `.*?(\d+)` with `.` not matching newline). -/
def firstDigitsSameLine : List Char → Option Nat
  | [] => none
  | c :: t =>
      if c == '\n' then none
      else if c.isDigit then some (digitsVal (c :: t.takeWhile Char.isDigit))
      else firstDigitsSameLine t

/-- Case-insensitive literal-prefix test: the (lowercase) needle against
the text lowered character by character. -/
def lowerIsPrefixOf : List Char → List Char → Bool
  | [], _ => true
  | _ :: _, [] => false
  | p :: ps, c :: cs => (p == c.toLower) && lowerIsPrefixOf ps cs

/-- The model of `re.search(r'(?:ats_score|score).*?(\d+)', s, re.IGNORECASE)`:
leftmost keyword occurrence with digits later on the same line wins; a
keyword occurrence with no same-line digits backtracks to later positions. -/
def scoreSearch : List Char → Option Nat
  | [] => none
  | c :: t =>
      if lowerIsPrefixOf (("ats_score").toList) (c :: t) then
        match firstDigitsSameLine ((c :: t).drop 9) with
        | some n => some n
        | none => scoreSearch t
      else if lowerIsPrefixOf (("score").toList) (c :: t) then
        match firstDigitsSameLine ((c :: t).drop 5) with
        | some n => some n
        | none => scoreSearch t
      else scoreSearch t

def fallbackDefaultSuggestion : List Char :=
  ("Consider adding more relevant keywords from the job description").toList

def fallbackFeedback : List Char :=
  ("Analysis completed with fallback parsing. Results may be limited.").toList

/-- `parse_fallback_response` (src/utils/llm_client.py lines 183-230). -/
def parse_fallback_response (s : List Char) : FallbackResult :=
  let n : Nat := (scoreSearch s).getD 50
  let st := (splitChar '\n' s).foldl scanLine ⟨none, [], [], []⟩
  { ats_score := min 100 (max 0 (n : Int)),
    matched_keywords := st.matched,
    missing_keywords := st.missing,
    suggestions := if st.sugg.isEmpty then [fallbackDefaultSuggestion] else st.sugg,
    feedback := fallbackFeedback }

/-- Slice to the span from the first brace to the last closing brace when
both exist and the first precedes the last (lines 114-117). -/
def braceSlice (s : List Char) : List Char :=
  match pyFindChar '\x7b' s, pyRFindChar '\x7d' s with
  | some i, some j => if i < j then (s.drop i).take (j + 1 - i) else s
  | _, _ => s

/-- Response-text cleanup of `analyze_resume` (lines 95-117): strip,
drop a reasoning block, strip code fences, slice to the brace span. -/
def preprocess (s : List Char) : List Char :=
  let c0 := pyStrip s
  let c1 :=
    if containsSub (("<think>").toList) c0 then
      match findSub (("</think>").toList) c0 with
      | some i => pyStrip (c0.drop (i + 8))
      | none => c0
    else c0
  let c2 := if (("```json").toList).isPrefixOf c1 then c1.drop 7 else c1
  let c3 := if (("```").toList).isPrefixOf c2 then c2.drop 3 else c2
  let c4 := if (("```").toList).isSuffixOf c3 then c3.take (c3.length - 3) else c3
  braceSlice (pyStrip c4)

/-- The two result shapes `analyze_resume` can hand back: the full record
(JSON success, or the canned sample) or the partial fallback record. -/
inductive NormOut where
  | full : AnalysisResult → NormOut
  | heur : FallbackResult → NormOut

/-- The response normalizer: preprocessing, `json.loads`, validation; a
JSON decode error goes to the heuristic fallback, any other exception is
caught by the outer handler which substitutes the canned sample. -/
def normalize (s : List Char) : NormOut :=
  match json_loads (preprocess s) with
  | some j =>
      match validated_result j with
      | some v => .full v
      | none => .full sample_result
  | none => .heur (parse_fallback_response (preprocess s))

/-- `analyze_resume` as a function of the outbound API call's outcome:
an exception from the call yields the canned sample; a response text is
normalized. -/
def analyze_resume (api : Except (List Char) (List Char)) : NormOut :=
  match api with
  | .error _ => .full sample_result
  | .ok s => normalize s

/-- Bulleted keyword section of the report: iterate when truthy, else the
placeholder bullet line (src/app.py lines 339-357). -/
def reportKwLines (v : Json) (emptyMsg : List Char) : Option (List (List Char)) :=
  if pyTruthy v then
    match pyIterElems v with
    | some els => some (els.map (fun e => bulletChar :: ' ' :: pyStr e))
    | none => none
  else some [bulletChar :: ' ' :: emptyMsg]

/-- Lines for one text replacement (src/app.py lines 363-373); the item
must be a dict for `.get`. -/
def reportReplLines (idx : Nat) (r : Json) : Option (List (List Char)) :=
  match r with
  | .obj kvs =>
      some [natStr idx ++ ((". Section: ").toList)
              ++ pyStr (objGetD kvs (("section").toList) (.str (("Section").toList))),
            (("   Current Text: ").toList)
              ++ pyStr (objGetD kvs (("original_text").toList)
                          (.str (("Original text not provided").toList))),
            (("   Improved Text: ").toList)
              ++ pyStr (objGetD kvs (("improved_text").toList)
                          (.str (("Improved text not provided").toList))),
            (("   Why this helps: ").toList)
              ++ pyStr (objGetD kvs (("reason").toList)
                          (.str (("Improvement reason not provided").toList))),
            []]
  | _ => none

/-- Lines for one detailed suggestion (src/app.py lines 392-402). -/
def reportSuggLines (kvs : List (List Char × Json)) : List (List Char) :=
  [bulletChar :: ' ' :: (("Category: ").toList)
     ++ pyStr (objGetD kvs (("category").toList) (.str (("General").toList))),
   (("  Issue: ").toList)
     ++ pyStr (objGetD kvs (("issue").toList) (.str (("Issue not specified").toList))),
   (("  Suggested Fix: ").toList)
     ++ pyStr (objGetD kvs (("solution").toList) (.str (("Solution not provided").toList))),
   (("  Expected Impact: ").toList)
     ++ pyStr (objGetD kvs (("expected_impact").toList) (.str (("Impact not specified").toList))),
   []]

/-- Test `s.get('priority') == p` for a suggestion dict. -/
def hasPriority (p : List Char) (kvs : List (List Char × Json)) : Bool :=
  match objGetD kvs (("priority").toList) .null with
  | .str t => t == p
  | _ => false

/-- One priority group of the report: group header then suggestion lines,
nothing when the group is empty (src/app.py lines 385-402). -/
def reportGroup (name : List Char) (group : List (List (List Char × Json))) :
    List (List Char) :=
  if group.isEmpty then []
  else (name ++ [':']) :: (group.map reportSuggLines).flatten

/-- Python `re.split(r'\d+\.', s)` (fuelled scan). -/
def splitNumDotAux : Nat → List Char → List (List Char)
  | 0, s => [s]
  | fuel + 1, s =>
      match s with
      | [] => [[]]
      | c :: t =>
          if c.isDigit then
            match t.dropWhile Char.isDigit with
            | '.' :: r2 => [] :: splitNumDotAux fuel r2
            | _ =>
                match splitNumDotAux fuel t with
                | [] => [[c]]
                | h :: r => (c :: h) :: r
          else
            match splitNumDotAux fuel t with
            | [] => [[c]]
            | h :: r => (c :: h) :: r

def splitNumDot (s : List Char) : List (List Char) := splitNumDotAux s.length s

/-- Next-steps section: re-split into bullets when the text contains the
`1.` and `2.` markers, else verbatim (src/app.py lines 412-425). -/
def reportNextSteps (v : Json) : Option (List (List Char)) :=
  if pyTruthy v then
    match v with
    | .str s =>
        some ((("🚀 Next Steps").toList) ::
          (if containsSub (("1.").toList) s && containsSub (("2.").toList) s then
            (splitNumDot s).filterMap (fun p =>
              let cs := pyStrip p
              if !cs.isEmpty && cs.length > 3 then some (bulletChar :: ' ' :: cs) else none)
          else [s]) ++ [[]])
    | _ => none
  else some []

/-- `generate_text_report` (src/app.py lines 325-427), as the list of
report lines joined with newlines; `none` models a raised exception
(iterating a non-iterable, `.get` on a non-dict, joining a non-string). -/
def generate_text_report (r : AnalysisResult) : Option (List Char) := do
  let kw ← reportKwLines r.matched_keywords (("No specific matched keywords identified").toList)
  let ms ← reportKwLines r.missing_keywords (("No missing keywords identified").toList)
  let repl ←
    (if pyTruthy r.text_replacements then do
      let els ← pyIterElems r.text_replacements
      let lss ← optMapM (fun p => reportReplLines (p.1 + 1) p.2) els.enum
      pure ((("✏️ Text Replacements (Resume Improvements)").toList) :: lss.flatten)
    else pure [])
  let det ←
    (if pyTruthy r.detailed_suggestions then do
      let els ← pyIterElems r.detailed_suggestions
      let kvss ← optMapM (fun e => match e with | .obj kvs => some kvs | _ => none) els
      pure ((("🎯 Detailed Suggestions").toList) ::
        (reportGroup (("High Priority").toList) (kvss.filter (hasPriority (("High").toList)))
         ++ reportGroup (("Medium Priority").toList) (kvss.filter (hasPriority (("Medium").toList)))
         ++ reportGroup (("Low Priority").toList) (kvss.filter (hasPriority (("Low").toList)))))
    else pure [])
  let expl ←
    (if pyTruthy r.score_explanation then
      match r.score_explanation with
      | .str s => some [(("📈 Score Breakdown Explanation").toList), s, []]
      | _ => none
    else pure [])
  let nxt ← reportNextSteps r.next_steps
  let lines :=
    [(("📊 Overall ATS Score").toList),
     intStr r.ats_score ++ (("/100").toList),
     pyStr r.score_summary,
     []]
    ++ ((("✅ Matched Keywords").toList) :: kw) ++ [[]]
    ++ ((("❌ Missing Critical Keywords").toList) :: ms) ++ [[]]
    ++ repl ++ det ++ expl ++ nxt
  pure (joinWith ['\n'] lines)

/-- Collapse runs of whitespace to a single space, i.e.
`re.sub(r'\s+', ' ', text)`; the flag records whether the previous
character was part of a run. -/
def collapseWsAux (prevSpace : Bool) : List Char → List Char
  | [] => []
  | c :: t =>
      if pyIsSpace c then
        if prevSpace then collapseWsAux true t else ' ' :: collapseWsAux true t
      else c :: collapseWsAux false t

/-- Collapse runs of literal spaces, i.e. `re.sub(r' +', ' ', text)`. -/
def collapseSpacesAux (prevSpace : Bool) : List Char → List Char
  | [] => []
  | c :: t =>
      if c == ' ' then
        if prevSpace then collapseSpacesAux true t else ' ' :: collapseSpacesAux true t
      else c :: collapseSpacesAux false t

/-- Characters kept by `clean_text`'s allow-list
`[^\w\s\-.,;:()\[\]@#%&*+=<>?/\\|"\'` + backquote + `~]` (ASCII word
characters; the backquote and apostrophe are given by code point). -/
def cleanAllowed (c : Char) : Bool :=
  c.isAlpha || c.isDigit || c == '_' || pyIsSpace c
    || (("-.,;:()[]@#%&*+=<>?/\\|\"~").toList).contains c
    || c == quoteChar || c == Char.ofNat 96

/-- `clean_text` (src/utils/parser.py lines 165-190): collapse whitespace,
replace disallowed characters by a space, collapse spaces, strip. -/
def clean_text (s : List Char) : List Char :=
  if s.isEmpty then []
  else
    pyStrip (collapseSpacesAux false
      ((collapseWsAux false s).map (fun c => if cleanAllowed c then c else ' ')))

/-- The decoded views of an uploaded file that the three extractors read:
a txt file's decoded text, a pdf's per-page texts, a docx's paragraph and
table-cell texts.  Raw-byte decoding is abstracted away; handing a file to
the wrong decoder is modelled as a decode failure. -/
inductive FileData where
  | txt : List Char → FileData
  | pdf : List (List Char) → FileData
  | docx : List (List Char) → List (List Char) → FileData

/-- `extract_text_from_txt` (lines 44-62): decode (UTF-8 with Latin-1
fallback always yields some text) and clean; never raises on empty text. -/
def extract_text_from_txt (d : FileData) : Except (List Char) (List Char) :=
  match d with
  | .txt c => .ok (clean_text c)
  | _ => .error (("could not decode file").toList)

/-- `extract_text_from_pdf` (lines 64-112): join page texts with newlines,
raise when the joined text strips to nothing, wrapping the message. -/
def extract_text_from_pdf (d : FileData) : Except (List Char) (List Char) :=
  match d with
  | .pdf pages =>
      let full := joinWith ['\n'] pages
      if (pyStrip full).isEmpty then
        .error (("Failed to process PDF: No text could be extracted from the PDF. The file might be image-based or corrupted.").toList)
      else .ok (clean_text full)
  | _ => .error (("Failed to process PDF: could not read file").toList)

/-- `extract_text_from_docx` (lines 114-163): keep paragraphs then table
cells whose text strips to something, join with newlines, raise when
nothing remains, wrapping the message. -/
def extract_text_from_docx (d : FileData) : Except (List Char) (List Char) :=
  match d with
  | .docx paras cells =>
      let content := paras.filter (fun p => !(pyStrip p).isEmpty)
                     ++ cells.filter (fun p => !(pyStrip p).isEmpty)
      let full := joinWith ['\n'] content
      if (pyStrip full).isEmpty then
        .error (("Failed to process DOCX: No text could be extracted from the DOCX file.").toList)
      else .ok (clean_text full)
  | _ => .error (("Failed to process DOCX: could not read file").toList)

/-- The extension used for dispatch: `name.lower().split('.')[-1]`. -/
def fileExt (name : List Char) : List Char :=
  (splitChar '.' (pyLower name)).getLastD []

/-- `extract_text` (src/utils/parser.py lines 11-42): dispatch on the
extension, raise on unsupported formats, wrap every failure in the
`Error processing {EXT} file:` message. -/
def extract_text (name : List Char) (d : FileData) : Except (List Char) (List Char) :=
  let ext := fileExt name
  let inner : Except (List Char) (List Char) :=
    if ext = ("txt").toList then extract_text_from_txt d
    else if ext = ("pdf").toList then extract_text_from_pdf d
    else if ext = ("docx").toList ∨ ext = ("doc").toList then extract_text_from_docx d
    else .error ((("Unsupported file format: ").toList) ++ ext)
  match inner with
  | .ok t => .ok t
  | .error m =>
      .error ((("Error processing ").toList) ++ pyUpper ext ++ ((" file: ").toList) ++ m)

/-- A 20-element keyword list for the C6 witness. -/
def kw20 : List Json := (List.range 20).map (fun i => Json.str (natStr i))

/-- The concrete fenced response of claim C8. -/
def fencedExample : List Char :=
  ("```json\n\x7b\"ats_score\": 80, \"score_summary\": \"Strong\"\x7d\n```").toList

/-- Structural validity of a normalizer output: the score is clamped to
[0,100]; on the heuristic shape the keyword lists respect the 10-item
caps and the suggestions list is nonempty (default) and within its cap. -/
def normValid : NormOut → Prop
  | .full v => 0 ≤ v.ats_score ∧ v.ats_score ≤ 100
  | .heur f =>
      (0 ≤ f.ats_score ∧ f.ats_score ≤ 100) ∧
      f.matched_keywords.length ≤ 10 ∧ f.missing_keywords.length ≤ 10 ∧
      1 ≤ f.suggestions.length ∧ f.suggestions.length ≤ 8

/-- The bullet-marker test of the fallback scanner's collection branch. -/
def bulletish (l : List Char) : Bool :=
  mojibakeBullet.isPrefixOf l || (['-']).isPrefixOf l || (['*']).isPrefixOf l

/-- The record used as the round-trip counterexample. -/
def roundtripSample : AnalysisResult :=
  { ats_score := 85,
    score_summary := .str (("Analysis completed").toList),
    matched_keywords := .arr [.str (("Python").toList)],
    missing_keywords := .arr [.str (("AWS").toList)],
    text_replacements := .arr [],
    detailed_suggestions := .arr [],
    score_breakdown := .obj [],
    score_explanation := .str [],
    next_steps := .str [],
    suggestions := .arr [],
    feedback := .str [] }

/-- A line that changes no collection mode and is already stripped: the
three mode-trigger tests of the scanner are false on it. -/
@[reducible]
def tameLine (l : List Char) : Prop :=
  pyStrip l = l ∧
  (containsSub (("matched").toList) (pyLower l) && containsSub (("keyword").toList) (pyLower l)) = false ∧
  (containsSub (("missing").toList) (pyLower l) && containsSub (("keyword").toList) (pyLower l)) = false ∧
  (containsSub (("suggestion").toList) (pyLower l) || containsSub (("recommend").toList) (pyLower l)) = false

/-- The mode-switch lines used by claim C4. -/
def missingHeader : List Char := ("Missing Keywords:").toList

def suggHeader : List Char := ("Suggestions:").toList

def matchedHeader : List Char := ("Matched Keywords:").toList

/-- Score projection of either result shape. -/
def outScore : NormOut → Int
  | .full v => v.ats_score
  | .heur f => f.ats_score

/-- Whether the normalizer produced the full (JSON/canned) shape. -/
def isFull : NormOut → Bool
  | .full _ => true
  | .heur _ => false

theorem optMapM_length {α β : Type} {f : α → Option β} :
    ∀ {l : List α} {r : List β}, optMapM f l = some r → r.length = l.length := by
  intro l
  induction l with
  | nil => intro r h; simp [optMapM] at h; simp [← h]
  | cons a t ih =>
      intro r h
      simp only [optMapM] at h
      cases hfa : f a with
      | none => rw [hfa] at h; simp at h
      | some b =>
          rw [hfa] at h
          cases hrec : optMapM f t with
          | none => rw [hrec] at h; simp at h
          | some r2 =>
              rw [hrec] at h
              simp at h
              rw [← h]
              simp [ih hrec]

/-- Inversion of the success path of `validated_result`. -/
theorem validated_fields (kvs : List (List Char × Json))
    (hok : (validated_result (Json.obj kvs)).isSome = true) :
    ∃ sc mk ms tr ds lg,
      pyInt (objGetD kvs (("ats_score").toList) (.num 0)) = some sc ∧
      pySlice 15 (objGetD kvs (("matched_keywords").toList) (.arr [])) = some mk ∧
      pySlice 15 (objGetD kvs (("missing_keywords").toList) (.arr [])) = some ms ∧
      pySlice 10 (objGetD kvs (("text_replacements").toList) (.arr [])) = some tr ∧
      pySlice 10 (objGetD kvs (("detailed_suggestions").toList) (.arr [])) = some ds ∧
      legacyList (objGetD kvs (("detailed_suggestions").toList) (.arr [])) = some lg ∧
      validated_result (Json.obj kvs) = some
        { ats_score := min 100 (max 0 sc),
          score_summary := objGetD kvs (("score_summary").toList)
                             (.str (("Analysis completed").toList)),
          matched_keywords := mk,
          missing_keywords := ms,
          text_replacements := tr,
          detailed_suggestions := ds,
          score_breakdown := objGetD kvs (("score_breakdown").toList) (.obj []),
          score_explanation := objGetD kvs (("score_explanation").toList)
                                 (.str (("Score analysis not available.").toList)),
          next_steps := objGetD kvs (("next_steps").toList)
                          (.str (("Next steps not available.").toList)),
          suggestions := .arr (lg.map Json.str),
          feedback := objGetD kvs (("score_explanation").toList)
                        (.str (("Analysis completed successfully.").toList)) } := by
  rw [Option.isSome_iff_exists] at hok
  obtain ⟨v, hv⟩ := hok
  unfold validated_result at hv
  simp only [Option.bind_eq_some] at hv
  obtain ⟨sc, h1, mk, h2, ms, h3, tr, h4, ds, h5, lg, h6, hv⟩ := hv
  refine ⟨sc, mk, ms, tr, ds, lg, h1, h2, h3, h4, h5, h6, ?_⟩
  unfold validated_result
  simp only [h1, h2, h3, h4, h5, h6, Option.some_bind]

/-- Claim C10: every exception from the outbound LLM API call is absorbed:
`analyze_resume` returns the hardcoded sample result (no retry, no
propagation), so the caller always receives a renderable record. -/
theorem analyze_resume_api_error_canned :
    ∀ e : List Char, analyze_resume (.error e) = .full sample_result := by
  intro e
  rfl

/-- Witness for C10 at a concrete error message. -/
theorem analyze_resume_api_error_canned_witness :
    analyze_resume (.error (("connection refused").toList)) = .full sample_result :=
  analyze_resume_api_error_canned (("connection refused").toList)

/-- Claim C5: for every file name whose computed extension is outside
txt/pdf/docx/doc, `extract_text` fails, surfacing the typed
unsupported-format message (the spec's `UnsupportedFormatError`), wrapped
by the outer handler. -/
theorem extract_unsupported_format (name : List Char) (d : FileData)
    (h1 : fileExt name ≠ ("txt").toList)
    (h2 : fileExt name ≠ ("pdf").toList)
    (h3 : fileExt name ≠ ("docx").toList)
    (h4 : fileExt name ≠ ("doc").toList) :
    extract_text name d =
      .error ((("Error processing ").toList) ++ pyUpper (fileExt name)
              ++ ((" file: Unsupported file format: ").toList) ++ fileExt name) := by
  simp only [extract_text, if_neg h1, if_neg h2, if_neg (not_or.mpr ⟨h3, h4⟩)]
  simp

/-- Witness for C5: a .png upload is rejected with the unsupported-format
message. -/
theorem extract_unsupported_format_witness :
    extract_text (("photo.png").toList) (.txt []) =
      .error ((("Error processing ").toList) ++ pyUpper (fileExt (("photo.png").toList))
              ++ ((" file: Unsupported file format: ").toList) ++ fileExt (("photo.png").toList)) :=
  extract_unsupported_format (("photo.png").toList) (.txt [])
    (by decide) (by decide) (by decide) (by decide)

/-- Claim C7: on a successfully parsed JSON response, the resulting
ats_score is the input score clamped to [0,100]; 150 clamps to 100 and
-10 clamps to 0. -/
theorem validated_clamps_score (kvs : List (List Char × Json)) (n : Int)
    (hs : objGetD kvs (("ats_score").toList) (.num 0) = Json.num n)
    (hok : (validated_result (Json.obj kvs)).isSome = true) :
    (validated_result (Json.obj kvs)).map AnalysisResult.ats_score = some (min 100 (max 0 n)) ∧
    (n = 150 → (validated_result (Json.obj kvs)).map AnalysisResult.ats_score = some 100) ∧
    (n = -10 → (validated_result (Json.obj kvs)).map AnalysisResult.ats_score = some 0) := by
  obtain ⟨sc, mk, ms, tr, ds, lg, h1, h2, h3, h4, h5, h6, hv⟩ := validated_fields kvs hok
  rw [hs] at h1
  simp only [pyInt] at h1
  obtain rfl : n = sc := by injection h1
  have hmain : (validated_result (Json.obj kvs)).map AnalysisResult.ats_score
      = some (min 100 (max 0 n)) := by
    rw [hv]
    rfl
  refine ⟨hmain, fun hn => ?_, fun hn => ?_⟩
  · rw [hmain, hn]; decide
  · rw [hmain, hn]; decide

/-- Witness for C7 at two concrete objects: score 150 clamps to 100 and
score -10 clamps to 0. -/
theorem validated_clamps_score_witness :
    (validated_result (Json.obj [((("ats_score").toList), Json.num 150)])).map
        AnalysisResult.ats_score = some 100 ∧
    (validated_result (Json.obj [((("ats_score").toList), Json.num (-10))])).map
        AnalysisResult.ats_score = some 0 :=
  ⟨(validated_clamps_score [((("ats_score").toList), Json.num 150)] 150 rfl rfl).2.1 rfl,
   (validated_clamps_score [((("ats_score").toList), Json.num (-10))] (-10) rfl rfl).2.2 rfl⟩

/-- Claim C6: on a successfully parsed JSON response the list fields are
truncated to their caps: matched/missing keywords to 15 (20 inputs give
exactly 15), text replacements and detailed suggestions to 10. -/
theorem validated_truncates_lists (kvs : List (List Char × Json))
    (l1 l2 l3 l4 : List Json)
    (hm : objGetD kvs (("matched_keywords").toList) (.arr []) = Json.arr l1)
    (hmi : objGetD kvs (("missing_keywords").toList) (.arr []) = Json.arr l2)
    (htr : objGetD kvs (("text_replacements").toList) (.arr []) = Json.arr l3)
    (hds : objGetD kvs (("detailed_suggestions").toList) (.arr []) = Json.arr l4)
    (hok : (validated_result (Json.obj kvs)).isSome = true) :
    ((validated_result (Json.obj kvs)).map AnalysisResult.matched_keywords
        = some (Json.arr (l1.take 15))
      ∧ (l1.length = 20 → (l1.take 15).length = 15)
      ∧ (l1.take 15).length ≤ 15) ∧
    ((validated_result (Json.obj kvs)).map AnalysisResult.missing_keywords
        = some (Json.arr (l2.take 15))
      ∧ (l2.take 15).length ≤ 15) ∧
    ((validated_result (Json.obj kvs)).map AnalysisResult.text_replacements
        = some (Json.arr (l3.take 10))
      ∧ (l3.take 10).length ≤ 10) ∧
    ((validated_result (Json.obj kvs)).map AnalysisResult.detailed_suggestions
        = some (Json.arr (l4.take 10))
      ∧ (l4.take 10).length ≤ 10) := by
  obtain ⟨sc, mk, ms, tr, ds, lg, h1, h2, h3, h4, h5, h6, hv⟩ := validated_fields kvs hok
  rw [hm] at h2
  rw [hmi] at h3
  rw [htr] at h4
  rw [hds] at h5
  simp only [pySlice, Option.some_inj] at h2 h3 h4 h5
  refine ⟨⟨?_, ?_, ?_⟩, ⟨?_, ?_⟩, ⟨?_, ?_⟩, ⟨?_, ?_⟩⟩
  · rw [hv, ← h2]; rfl
  · intro h20; simp [List.length_take, h20]
  · simp [List.length_take]
  · rw [hv, ← h3]; rfl
  · simp [List.length_take]
  · rw [hv, ← h4]; rfl
  · simp [List.length_take]
  · rw [hv, ← h5]; rfl
  · simp [List.length_take]

/-- Witness for C6: an object with 20 matched keywords yields exactly 15. -/
theorem validated_truncates_lists_witness :
    (validated_result (Json.obj [((("matched_keywords").toList), Json.arr kw20)])).map
        AnalysisResult.matched_keywords = some (Json.arr (kw20.take 15))
      ∧ (kw20.take 15).length = 15 :=
  ⟨(validated_truncates_lists [((("matched_keywords").toList), Json.arr kw20)]
      kw20 [] [] [] rfl rfl rfl rfl rfl).1.1,
   (validated_truncates_lists [((("matched_keywords").toList), Json.arr kw20)]
      kw20 [] [] [] rfl rfl rfl rfl rfl).1.2.1 (by decide)⟩

/-- Claim C9: on a successfully parsed JSON response the legacy flat
suggestions list has exactly one entry per detailed-suggestion item
(uncapped), each rendered as `"category: solution"` when those fields are
present as strings. -/
theorem validated_legacy_suggestions (kvs : List (List Char × Json)) (items : List Json)
    (hds : objGetD kvs (("detailed_suggestions").toList) (.arr []) = Json.arr items)
    (hok : (validated_result (Json.obj kvs)).isSome = true) :
    (∃ lg, optMapM legacyEntry items = some lg ∧
       (validated_result (Json.obj kvs)).map AnalysisResult.suggestions
         = some (Json.arr (lg.map Json.str)) ∧
       lg.length = items.length) ∧
    (∀ (kvs2 : List (List Char × Json)) (c sol : List Char),
       objGetD kvs2 (("category").toList) (.str (("General").toList)) = Json.str c →
       objGetD kvs2 (("solution").toList)
           (objGetD kvs2 (("suggestion").toList) (.str (pyRepr (Json.obj kvs2)))) = Json.str sol →
       legacyEntry (Json.obj kvs2) = some (c ++ ((": ").toList) ++ sol)) := by
  obtain ⟨sc, mk, ms, tr, ds, lg, h1, h2, h3, h4, h5, h6, hv⟩ := validated_fields kvs hok
  rw [hds] at h6
  simp only [legacyList] at h6
  constructor
  · exact ⟨lg, h6, by rw [hv]; rfl, optMapM_length h6⟩
  · intro kvs2 c sol hc hsol
    simp only [legacyEntry, hc, hsol, pyStr]

/-- Witness for C9 at an object carrying two detailed suggestions. -/
theorem validated_legacy_suggestions_witness :
    ∃ lg, optMapM legacyEntry
        [Json.obj [((("category").toList), Json.str (("Keywords").toList)),
                   ((("solution").toList), Json.str (("Add AWS").toList))],
         Json.obj [((("category").toList), Json.str (("Format").toList)),
                   ((("solution").toList), Json.str (("Use bullets").toList))]] = some lg ∧
      (validated_result (Json.obj
        [((("detailed_suggestions").toList), Json.arr
           [Json.obj [((("category").toList), Json.str (("Keywords").toList)),
                      ((("solution").toList), Json.str (("Add AWS").toList))],
            Json.obj [((("category").toList), Json.str (("Format").toList)),
                      ((("solution").toList), Json.str (("Use bullets").toList))]])])).map
          AnalysisResult.suggestions = some (Json.arr (lg.map Json.str)) ∧
      lg.length = 2 :=
  (validated_legacy_suggestions
    [((("detailed_suggestions").toList), Json.arr
       [Json.obj [((("category").toList), Json.str (("Keywords").toList)),
                  ((("solution").toList), Json.str (("Add AWS").toList))],
        Json.obj [((("category").toList), Json.str (("Format").toList)),
                  ((("solution").toList), Json.str (("Use bullets").toList))]])]
    [Json.obj [((("category").toList), Json.str (("Keywords").toList)),
               ((("solution").toList), Json.str (("Add AWS").toList))],
     Json.obj [((("category").toList), Json.str (("Format").toList)),
               ((("solution").toList), Json.str (("Use bullets").toList))]]
    rfl rfl).1

theorem pyFindChar_append_before {c : Char} :
    ∀ (pre r : List Char), c ∉ pre → pyFindChar c (pre ++ c :: r) = some pre.length := by
  intro pre
  induction pre with
  | nil => intro r _; simp [pyFindChar]
  | cons a t ih =>
      intro r h
      have ha : (a == c) = false := by
        simp only [beq_eq_false_iff_ne]
        exact fun hac => h (by simp [hac])
      have ht : c ∉ t := fun hc => h (List.mem_cons_of_mem a hc)
      simp only [List.cons_append, pyFindChar]
      rw [ha]
      simp
      exact ih r ht

theorem pyRFindChar_last {c : Char} (l r : List Char) (h : c ∉ r) :
    pyRFindChar c (l ++ c :: r) = some l.length := by
  have h' : c ∉ r.reverse := by simpa using h
  have hrev : (l ++ c :: r).reverse = r.reverse ++ c :: l.reverse := by simp
  unfold pyRFindChar
  rw [hrev, pyFindChar_append_before r.reverse l.reverse h']
  simp [List.length_append, List.length_reverse]

theorem take_len_add {α : Type} : ∀ (l₁ l₂ : List α) (n : Nat),
    (l₁ ++ l₂).take (l₁.length + n) = l₁ ++ l₂.take n := by
  intro l₁
  induction l₁ with
  | nil => intro l₂ n; simp
  | cons a t ih => intro l₂ n; simp [List.cons_append, Nat.succ_add, ih]

/-- The span from the first opening brace to the last closing brace. -/
theorem braceSlice_span (pre mid post : List Char)
    (hpre : '\x7b' ∉ pre) (hpost : '\x7d' ∉ post) :
    braceSlice (pre ++ '\x7b' :: (mid ++ '\x7d' :: post)) = '\x7b' :: (mid ++ ['\x7d']) := by
  have hf : pyFindChar '\x7b' (pre ++ '\x7b' :: (mid ++ '\x7d' :: post)) = some pre.length :=
    pyFindChar_append_before pre _ hpre
  have hr0 := pyRFindChar_last (pre ++ '\x7b' :: mid) post hpost
  have hshape : (pre ++ '\x7b' :: mid) ++ '\x7d' :: post = pre ++ '\x7b' :: (mid ++ '\x7d' :: post) := by
    simp
  rw [hshape] at hr0
  have hlen : (pre ++ '\x7b' :: mid).length = pre.length + 1 + mid.length := by
    simp [List.length_append]
    omega
  rw [hlen] at hr0
  unfold braceSlice
  rw [hf, hr0]
  dsimp only
  rw [if_pos (by omega)]
  have hdrop : (pre ++ '\x7b' :: (mid ++ '\x7d' :: post)).drop pre.length
      = '\x7b' :: (mid ++ '\x7d' :: post) := by
    simp [List.drop_left]
  rw [hdrop]
  have hidx : pre.length + 1 + mid.length + 1 - pre.length = mid.length + 1 + 1 := by omega
  rw [hidx]
  rw [List.take_succ_cons]
  rw [take_len_add mid ('\x7d' :: post) 1]
  rfl

/-- Claim C8: the normalizer strips a code fence and slices to the span
from the first opening brace to the last closing brace when the first
precedes the last; the concrete fenced JSON response parses successfully
with score 80. -/
theorem normalize_fence_and_slice :
    (∀ pre mid post : List Char, '\x7b' ∉ pre → '\x7d' ∉ post →
        braceSlice (pre ++ '\x7b' :: (mid ++ '\x7d' :: post)) = '\x7b' :: (mid ++ ['\x7d'])) ∧
    isFull (normalize fencedExample) = true ∧
    outScore (normalize fencedExample) = 80 := by
  refine ⟨braceSlice_span, ?_, ?_⟩ <;> rfl

/-- Witness for C8's brace-span clause at a concrete prose-wrapped JSON. -/
theorem normalize_fence_and_slice_witness :
    braceSlice ((("prose ").toList) ++ '\x7b' :: (((("\"a\": 1").toList)) ++ '\x7d' :: ((" tail").toList)))
      = '\x7b' :: ((("\"a\": 1").toList) ++ ['\x7d']) :=
  normalize_fence_and_slice.1 (("prose ").toList) (("\"a\": 1").toList) ((" tail").toList)
    (by decide) (by decide)

theorem scanLine_caps (st : ScanSt) (l : List Char)
    (hm : st.matched.length ≤ 10) (hmi : st.missing.length ≤ 10)
    (hs : st.sugg.length ≤ 8) :
    (scanLine st l).matched.length ≤ 10 ∧ (scanLine st l).missing.length ≤ 10 ∧
      (scanLine st l).sugg.length ≤ 8 := by
  simp only [scanLine]
  repeat' split
  all_goals simp_all [List.length_append]
  all_goals omega

theorem foldl_scan_caps :
    ∀ (lines : List (List Char)) (st : ScanSt),
      st.matched.length ≤ 10 → st.missing.length ≤ 10 → st.sugg.length ≤ 8 →
      ((lines.foldl scanLine st).matched.length ≤ 10 ∧
       (lines.foldl scanLine st).missing.length ≤ 10 ∧
       (lines.foldl scanLine st).sugg.length ≤ 8) := by
  intro lines
  induction lines with
  | nil => intro st hm hmi hs; exact ⟨hm, hmi, hs⟩
  | cons l t ih =>
      intro st hm hmi hs
      obtain ⟨h1, h2, h3⟩ := scanLine_caps st l hm hmi hs
      exact ih (scanLine st l) h1 h2 h3

theorem parse_fallback_valid (t : List Char) :
    normValid (.heur (parse_fallback_response t)) := by
  unfold parse_fallback_response
  obtain ⟨h1, h2, h3⟩ :=
    foldl_scan_caps (splitChar '\n' t) ⟨none, [], [], []⟩ (by simp) (by simp) (by simp)
  refine ⟨⟨?_, ?_⟩, h1, h2, ?_, ?_⟩
  · simp only []
    omega
  · simp only []
    omega
  · simp only []
    split
    · simp
    · rename_i hne
      have : ((splitChar '\n' t).foldl scanLine ⟨none, [], [], []⟩).sugg ≠ [] := by
        simpa [List.isEmpty_iff] using hne
      have := List.length_pos.mpr this
      omega
  · simp only []
    split
    · simp
    · exact h3

theorem validated_score_bounds (j : Json) (v : AnalysisResult)
    (h : validated_result j = some v) : 0 ≤ v.ats_score ∧ v.ats_score ≤ 100 := by
  cases j with
  | obj kvs =>
      simp only [validated_result, Option.bind_eq_some] at h
      obtain ⟨sc, h1, mk, h2, ms, h3, tr, h4, ds, h5, lg, h6, hv⟩ := h
      injection hv with hv
      subst hv
      constructor
      · show 0 ≤ min 100 (max 0 sc)
        omega
      · show min 100 (max 0 sc) ≤ 100
        omega
  | null => simp [validated_result] at h
  | bool b => simp [validated_result] at h
  | num n => simp [validated_result] at h
  | str s => simp [validated_result] at h
  | arr l => simp [validated_result] at h

/-- Claim C1: the response normalizer is total — every raw response text
yields a structurally valid result — and a text that is neither valid
JSON nor heuristically matchable (here the empty string) yields the
fallback defaults: score 50, empty keyword lists, the default suggestion
and the generic fallback feedback, with no other field populated (the
heuristic shape `FallbackResult` carries only these five fields). -/
theorem normalize_total :
    (∀ s : List Char, normValid (normalize s)) ∧
    normalize [] = .heur ⟨50, [], [], [fallbackDefaultSuggestion], fallbackFeedback⟩ := by
  constructor
  · intro s
    unfold normalize
    cases hj : json_loads (preprocess s) with
    | none => exact parse_fallback_valid (preprocess s)
    | some j =>
        dsimp only
        cases hv : validated_result j with
        | none => exact ⟨by decide, by decide⟩
        | some v => exact validated_score_bounds j v hv
  · rfl

/-- Witness for C1's universally quantified clause at a concrete free-text
response. -/
theorem normalize_total_witness :
    normValid (normalize (("the model refused to answer").toList)) :=
  normalize_total.1 (("the model refused to answer").toList)

theorem pyStrip_allspace (s : List Char) (h : ∀ c ∈ s, pyIsSpace c = true) :
    pyStrip s = [] := by
  unfold pyStrip
  rw [List.dropWhile_eq_nil_iff.mpr h]
  rfl

theorem collapseWsAux_true_allspace :
    ∀ (s : List Char), (∀ c ∈ s, pyIsSpace c = true) → collapseWsAux true s = [] := by
  intro s
  induction s with
  | nil => intro _; rfl
  | cons c t ih =>
      intro h
      simp only [collapseWsAux, h c (by simp)]
      exact ih (fun x hx => h x (by simp [hx]))

theorem clean_text_allspace (s : List Char) (h : ∀ c ∈ s, pyIsSpace c = true) :
    clean_text s = [] := by
  cases s with
  | nil => rfl
  | cons c t =>
      have hws : collapseWsAux false (c :: t) = [' '] := by
        simp only [collapseWsAux, h c (by simp)]
        rw [collapseWsAux_true_allspace t (fun x hx => h x (by simp [hx]))]
        simp
      simp only [clean_text, List.isEmpty_cons, hws]
      decide

theorem joinWith_allspace :
    ∀ (pages : List (List Char)),
      (∀ p ∈ pages, ∀ c ∈ p, pyIsSpace c = true) →
      ∀ c ∈ joinWith ['\n'] pages, pyIsSpace c = true := by
  intro pages
  induction pages with
  | nil => intro _ c hc; simp [joinWith] at hc
  | cons x rest ih =>
      intro h c hc
      cases rest with
      | nil =>
          simp only [joinWith] at hc
          exact h x (by simp) c hc
      | cons y t =>
          simp only [joinWith, List.append_assoc, List.mem_append, List.mem_cons] at hc
          rcases hc with hx | hsep | hrest
          · exact h x (by simp) c hx
          · rcases hsep with rfl | hf
            · rfl
            · simp at hf
          · exact ih (fun p hp => h p (by simp [hp])) c hrest

/-- Claim C3's counterexample: a txt upload whose decoded content is only
whitespace extracts to the empty string, with no failure at all. -/
theorem extract_txt_whitespace_returns_empty :
    extract_text (("resume.txt").toList) (.txt (("   ").toList)) = .ok [] := by
  rfl

/-- Claim C3 amended: the whitespace-only empty-content failure holds for
the pdf and docx extractors (the spec's `EmptyContentError`, surfaced
through the wrapped message), but the txt extractor returns the empty
string without failing. -/
theorem extract_whitespace_amended :
    (∀ (name content : List Char),
       fileExt name = ("txt").toList → (∀ c ∈ content, pyIsSpace c = true) →
       extract_text name (.txt content) = .ok []) ∧
    (∀ (name : List Char) (pages : List (List Char)),
       fileExt name = ("pdf").toList → (∀ p ∈ pages, ∀ c ∈ p, pyIsSpace c = true) →
       extract_text name (.pdf pages) = .error
         (("Error processing PDF file: Failed to process PDF: No text could be extracted from the PDF. The file might be image-based or corrupted.").toList)) ∧
    (∀ (name : List Char) (paras cells : List (List Char)),
       fileExt name = ("docx").toList →
       (∀ p ∈ paras, ∀ c ∈ p, pyIsSpace c = true) →
       (∀ p ∈ cells, ∀ c ∈ p, pyIsSpace c = true) →
       extract_text name (.docx paras cells) = .error
         (("Error processing DOCX file: Failed to process DOCX: No text could be extracted from the DOCX file.").toList)) := by
  refine ⟨?_, ?_, ?_⟩
  · intro name content hext hsp
    have hct := clean_text_allspace content hsp
    simp [extract_text, hext, extract_text_from_txt, hct]
  · intro name pages hext hsp
    have hstrip : pyStrip (joinWith ['\n'] pages) = [] :=
      pyStrip_allspace _ (joinWith_allspace pages hsp)
    simp only [extract_text, hext, extract_text_from_pdf, hstrip]
    rfl
  · intro name paras cells hext hp hc
    have hf1 : paras.filter (fun p => !(pyStrip p).isEmpty) = [] :=
      List.filter_eq_nil_iff.mpr (fun p hp2 => by simp [pyStrip_allspace p (hp p hp2)])
    have hf2 : cells.filter (fun p => !(pyStrip p).isEmpty) = [] :=
      List.filter_eq_nil_iff.mpr (fun p hp2 => by simp [pyStrip_allspace p (hc p hp2)])
    simp only [extract_text, hext, extract_text_from_docx, hf1, hf2]
    rfl

/-- Witness for C3's amended claim at concrete whitespace-only uploads of
each format. -/
theorem extract_whitespace_amended_witness :
    extract_text (("a.txt").toList) (.txt ((" \t ").toList)) = .ok [] ∧
    extract_text (("a.pdf").toList) (.pdf [((" ").toList), (("\t").toList)]) = .error
      (("Error processing PDF file: Failed to process PDF: No text could be extracted from the PDF. The file might be image-based or corrupted.").toList) ∧
    extract_text (("a.docx").toList) (.docx [(("  ").toList)] []) = .error
      (("Error processing DOCX file: Failed to process DOCX: No text could be extracted from the DOCX file.").toList) :=
  ⟨extract_whitespace_amended.1 (("a.txt").toList) ((" \t ").toList) (by decide) (by decide),
   extract_whitespace_amended.2.1 (("a.pdf").toList) [((" ").toList), (("\t").toList)]
     (by decide) (by decide),
   extract_whitespace_amended.2.2 (("a.docx").toList) [(("  ").toList)] []
     (by decide) (by decide) (by decide)⟩

theorem splitChar_not_mem (c : Char) :
    ∀ (s : List Char), c ∉ s → splitChar c s = [s] := by
  intro s
  induction s with
  | nil => intro _; rfl
  | cons a t ih =>
      intro h
      have ha : (a == c) = false :=
        beq_eq_false_iff_ne.mpr (fun he => h (by simp [he]))
      simp only [splitChar, ha]
      rw [ih (fun hc => h (by simp [hc]))]
      simp

theorem splitChar_append_sep (c : Char) :
    ∀ (x r : List Char), c ∉ x → splitChar c (x ++ c :: r) = x :: splitChar c r := by
  intro x
  induction x with
  | nil => intro r _; simp [splitChar]
  | cons a t ih =>
      intro r h
      have ha : (a == c) = false :=
        beq_eq_false_iff_ne.mpr (fun he => h (by simp [he]))
      simp only [List.cons_append, splitChar, ha, List.append_eq]
      rw [ih r (fun hc => h (by simp [hc]))]
      simp

theorem splitChar_joinWith (c : Char) :
    ∀ (ls : List (List Char)), ls ≠ [] → (∀ l ∈ ls, c ∉ l) →
      splitChar c (joinWith [c] ls) = ls := by
  intro ls
  induction ls with
  | nil => intro h _; exact absurd rfl h
  | cons x rest ih =>
      intro _ hmem
      cases rest with
      | nil => simpa [joinWith] using splitChar_not_mem c x (hmem x (by simp))
      | cons y t =>
          have hshape : joinWith [c] (x :: y :: t) = x ++ c :: joinWith [c] (y :: t) := by
            simp [joinWith]
          rw [hshape, splitChar_append_sep c x (joinWith [c] (y :: t)) (hmem x (by simp)),
              ih (by simp) (fun l hl => hmem l (by simp [hl]))]

theorem scanLine_no_bullet (st : ScanSt) (raw : List Char)
    (h : bulletish (pyStrip raw) = false) :
    (scanLine st raw).matched = st.matched ∧ (scanLine st raw).missing = st.missing ∧
      (scanLine st raw).sugg = st.sugg := by
  simp only [bulletish] at h
  simp only [scanLine]
  repeat' split
  all_goals simp_all

theorem foldl_no_bullet :
    ∀ (lines : List (List Char)) (st : ScanSt),
      (∀ l ∈ lines, bulletish (pyStrip l) = false) →
      ((lines.foldl scanLine st).matched = st.matched ∧
       (lines.foldl scanLine st).missing = st.missing ∧
       (lines.foldl scanLine st).sugg = st.sugg) := by
  intro lines
  induction lines with
  | nil => intro st _; exact ⟨rfl, rfl, rfl⟩
  | cons l t ih =>
      intro st h
      obtain ⟨h1, h2, h3⟩ := scanLine_no_bullet st l (h l (by simp))
      obtain ⟨g1, g2, g3⟩ := ih (scanLine st l) (fun x hx => h x (by simp [hx]))
      simp only [List.foldl_cons]
      exact ⟨g1.trans h1, g2.trans h2, g3.trans h3⟩

/-- Claim C2's counterexample: rendering this record and re-scanning the
report yields score 50 and empty keyword lists, not the original score 85
and lists ["Python"] / ["AWS"]: the regex cannot cross the newline after
"Overall ATS Score", and the report's true bullet U+2022 is not one of
the scanner's markers. -/
theorem roundtrip_counterexample :
    (generate_text_report roundtripSample).isSome = true ∧
    (parse_fallback_response ((generate_text_report roundtripSample).getD [])).ats_score = 50 ∧
    (parse_fallback_response ((generate_text_report roundtripSample).getD [])).matched_keywords = [] ∧
    (parse_fallback_response ((generate_text_report roundtripSample).getD [])).missing_keywords = [] ∧
    roundtripSample.ats_score = 85 ∧
    roundtripSample.matched_keywords = Json.arr [Json.str (("Python").toList)] ∧
    roundtripSample.missing_keywords = Json.arr [Json.str (("AWS").toList)] := by
  exact ⟨rfl, rfl, rfl, rfl, rfl, rfl, rfl⟩

/-- Claim C2 amended: re-scanning a rendered report does not recover the
original values; whenever the report text contains no same-line
"score"-then-digits pattern and no line starting with one of the
scanner's markers (in particular, reports whose bullets are the true
`•`), the re-scan returns the fallback defaults: score 50, empty keyword
lists, the default suggestion and the generic fallback feedback. -/
theorem report_rescan_defaults (r : AnalysisResult) (t : List Char)
    (_hr : generate_text_report r = some t)
    (hscore : scoreSearch t = none)
    (hlines : ∀ l ∈ splitChar '\n' t, bulletish (pyStrip l) = false) :
    parse_fallback_response t =
      ⟨50, [], [], [fallbackDefaultSuggestion], fallbackFeedback⟩ := by
  obtain ⟨h1, h2, h3⟩ := foldl_no_bullet (splitChar '\n' t) ⟨none, [], [], []⟩ hlines
  simp only [parse_fallback_response, hscore, h1, h2, h3]
  decide

/-- Witness for C2's amended claim at the concrete counterexample record. -/
theorem report_rescan_defaults_witness :
    parse_fallback_response ((generate_text_report roundtripSample).getD []) =
      ⟨50, [], [], [fallbackDefaultSuggestion], fallbackFeedback⟩ :=
  report_rescan_defaults roundtripSample ((generate_text_report roundtripSample).getD [])
    (by rfl) (by decide) (by decide)

theorem scan_bullet_collect_matched :
    ∀ (lines : List (List Char)) (st : ScanSt),
      st.sec = some Mode.matched →
      (∀ l ∈ lines, tameLine l ∧ bulletish l = true) →
      lines.foldl scanLine st =
        { st with matched :=
            st.matched ++ (lines.map (fun l => pyStrip (l.drop 1))).take (10 - st.matched.length) } := by
  intro lines
  induction lines with
  | nil => intro st _ _; simp
  | cons l rest ih =>
      intro st hsec htame
      obtain ⟨⟨hstrip, htrig1, htrig2, htrig3⟩, hb⟩ := htame l (by simp)
      simp only [bulletish] at hb
      have hline : scanLine st l =
          (if st.matched.length < 10
           then { st with matched := st.matched ++ [pyStrip (l.drop 1)] } else st) := by
        simp only [scanLine, hstrip, htrig1, htrig2, htrig3, hb, hsec]
        simp
      rw [List.map_cons, List.foldl_cons, hline]
      by_cases hlt : st.matched.length < 10
      · rw [if_pos hlt,
            ih { st with matched := st.matched ++ [pyStrip (l.drop 1)] } (by simp [hsec])
              (fun x hx => htame x (by simp [hx]))]
        have htake : (pyStrip (l.drop 1) :: rest.map (fun l => pyStrip (l.drop 1))).take
              (10 - st.matched.length)
            = pyStrip (l.drop 1) ::
              (rest.map (fun l => pyStrip (l.drop 1))).take (10 - (st.matched.length + 1)) := by
          have hidx : 10 - st.matched.length = (10 - (st.matched.length + 1)) + 1 := by omega
          rw [hidx, List.take_succ_cons]
        have hlen : (st.matched ++ [pyStrip (l.drop 1)]).length = st.matched.length + 1 := by
          simp
        simp only [ScanSt.mk.injEq]
        refine ⟨trivial, ?_, trivial, trivial⟩
        rw [hlen, htake]
        simp [List.append_assoc]
      · rw [if_neg hlt, ih st hsec (fun x hx => htame x (by simp [hx]))]
        have h0 : 10 - st.matched.length = 0 := by omega
        simp [h0]

theorem scan_bullet_collect_missing :
    ∀ (lines : List (List Char)) (st : ScanSt),
      st.sec = some Mode.missing →
      (∀ l ∈ lines, tameLine l ∧ bulletish l = true) →
      lines.foldl scanLine st =
        { st with missing :=
            st.missing ++ (lines.map (fun l => pyStrip (l.drop 1))).take (10 - st.missing.length) } := by
  intro lines
  induction lines with
  | nil => intro st _ _; simp
  | cons l rest ih =>
      intro st hsec htame
      obtain ⟨⟨hstrip, htrig1, htrig2, htrig3⟩, hb⟩ := htame l (by simp)
      simp only [bulletish] at hb
      have hline : scanLine st l =
          (if st.missing.length < 10
           then { st with missing := st.missing ++ [pyStrip (l.drop 1)] } else st) := by
        simp only [scanLine, hstrip, htrig1, htrig2, htrig3, hb, hsec]
        simp
      rw [List.map_cons, List.foldl_cons, hline]
      by_cases hlt : st.missing.length < 10
      · rw [if_pos hlt,
            ih { st with missing := st.missing ++ [pyStrip (l.drop 1)] } (by simp [hsec])
              (fun x hx => htame x (by simp [hx]))]
        have htake : (pyStrip (l.drop 1) :: rest.map (fun l => pyStrip (l.drop 1))).take
              (10 - st.missing.length)
            = pyStrip (l.drop 1) ::
              (rest.map (fun l => pyStrip (l.drop 1))).take (10 - (st.missing.length + 1)) := by
          have hidx : 10 - st.missing.length = (10 - (st.missing.length + 1)) + 1 := by omega
          rw [hidx, List.take_succ_cons]
        have hlen : (st.missing ++ [pyStrip (l.drop 1)]).length = st.missing.length + 1 := by
          simp
        simp only [ScanSt.mk.injEq]
        refine ⟨trivial, trivial, ?_, trivial⟩
        rw [hlen, htake]
        simp [List.append_assoc]
      · rw [if_neg hlt, ih st hsec (fun x hx => htame x (by simp [hx]))]
        have h0 : 10 - st.missing.length = 0 := by omega
        simp [h0]

theorem scan_bullet_collect_sugg :
    ∀ (lines : List (List Char)) (st : ScanSt),
      st.sec = some Mode.sugg →
      (∀ l ∈ lines, tameLine l ∧ bulletish l = true) →
      lines.foldl scanLine st =
        { st with sugg :=
            st.sugg ++ (lines.map (fun l => pyStrip (l.drop 1))).take (8 - st.sugg.length) } := by
  intro lines
  induction lines with
  | nil => intro st _ _; simp
  | cons l rest ih =>
      intro st hsec htame
      obtain ⟨⟨hstrip, htrig1, htrig2, htrig3⟩, hb⟩ := htame l (by simp)
      simp only [bulletish] at hb
      have hline : scanLine st l =
          (if st.sugg.length < 8
           then { st with sugg := st.sugg ++ [pyStrip (l.drop 1)] } else st) := by
        simp only [scanLine, hstrip, htrig1, htrig2, htrig3, hb, hsec]
        simp
      rw [List.map_cons, List.foldl_cons, hline]
      by_cases hlt : st.sugg.length < 8
      · rw [if_pos hlt,
            ih { st with sugg := st.sugg ++ [pyStrip (l.drop 1)] } (by simp [hsec])
              (fun x hx => htame x (by simp [hx]))]
        have htake : (pyStrip (l.drop 1) :: rest.map (fun l => pyStrip (l.drop 1))).take
              (8 - st.sugg.length)
            = pyStrip (l.drop 1) ::
              (rest.map (fun l => pyStrip (l.drop 1))).take (8 - (st.sugg.length + 1)) := by
          have hidx : 8 - st.sugg.length = (8 - (st.sugg.length + 1)) + 1 := by omega
          rw [hidx, List.take_succ_cons]
        have hlen : (st.sugg ++ [pyStrip (l.drop 1)]).length = st.sugg.length + 1 := by
          simp
        simp only [ScanSt.mk.injEq]
        refine ⟨trivial, trivial, trivial, ?_⟩
        rw [hlen, htake]
        simp [List.append_assoc]
      · rw [if_neg hlt, ih st hsec (fun x hx => htame x (by simp [hx]))]
        have h0 : 8 - st.sugg.length = 0 := by omega
        simp [h0]

theorem scan_bullet_lines_ignored :
    ∀ (items : List (List Char)) (st : ScanSt),
      (∀ it ∈ items, tameLine (bulletChar :: ' ' :: it)) →
      (items.map (fun it => bulletChar :: ' ' :: it)).foldl scanLine st = st := by
  intro items
  induction items with
  | nil => intro st _; rfl
  | cons it rest ih =>
      intro st htame
      obtain ⟨hstrip, htrig1, htrig2, htrig3⟩ := htame it (by simp)
      have hb : (mojibakeBullet.isPrefixOf (bulletChar :: ' ' :: it)
          || (['-']).isPrefixOf (bulletChar :: ' ' :: it)
          || (['*']).isPrefixOf (bulletChar :: ' ' :: it)) = false := rfl
      have hline : scanLine st (bulletChar :: ' ' :: it) = st := by
        simp only [scanLine, hstrip, htrig1, htrig2, htrig3, hb]
        simp
      rw [List.map_cons, List.foldl_cons, hline]
      exact ih st (fun x hx => htame x (by simp [hx]))

/-- Claim C4's counterexample: after the "Missing Keywords:" switch line,
a line bulleted with the true `•` (U+2022) is NOT collected — the
source's marker is the mis-encoded three-character sequence — while the
same line bulleted with `-` is collected. -/
theorem fallback_bullet_counterexample :
    (parse_fallback_response
        ((("Missing Keywords:\n").toList) ++ bulletChar :: ' ' :: (("AWS").toList))).missing_keywords
      = [] ∧
    (parse_fallback_response (("Missing Keywords:\n- AWS").toList)).missing_keywords
      = [(("AWS").toList)] := by
  exact ⟨rfl, rfl⟩

/-- Claim C4 amended: after a line switches the collector into a mode,
subsequent lines prefixed with `-`, `*`, or the source's mis-encoded
three-character bullet sequence are collected into the active mode's
list — matched and missing capped at 10 items, suggestions capped at
8 — while lines prefixed with the true bullet `•` are not collected;
since only one leading character is dropped, an item collected from a
mis-encoded-bullet line retains the remaining two marker characters. -/
theorem fallback_bullets_amended :
    (∀ (m : Char) (items : List (List Char)), (m = '-' ∨ m = '*') →
      (∀ it ∈ items, tameLine (m :: ' ' :: it) ∧ pyStrip (' ' :: it) = it ∧
        '\n' ∉ (m :: ' ' :: it)) →
      (parse_fallback_response (joinWith ['\n']
          (matchedHeader :: items.map (fun it => m :: ' ' :: it)))).matched_keywords
        = items.take 10) ∧
    (∀ (m : Char) (items : List (List Char)), (m = '-' ∨ m = '*') →
      (∀ it ∈ items, tameLine (m :: ' ' :: it) ∧ pyStrip (' ' :: it) = it ∧
        '\n' ∉ (m :: ' ' :: it)) →
      (parse_fallback_response (joinWith ['\n']
          (missingHeader :: items.map (fun it => m :: ' ' :: it)))).missing_keywords
        = items.take 10) ∧
    (∀ items : List (List Char),
      (∀ it ∈ items, tameLine (mojibakeBullet ++ ' ' :: it) ∧
        pyStrip (mojibakeBullet.drop 1 ++ ' ' :: it) = mojibakeBullet.drop 1 ++ ' ' :: it ∧
        '\n' ∉ (mojibakeBullet ++ ' ' :: it)) →
      (parse_fallback_response (joinWith ['\n']
          (missingHeader :: items.map (fun it => mojibakeBullet ++ ' ' :: it)))).missing_keywords
        = (items.map (fun it => mojibakeBullet.drop 1 ++ ' ' :: it)).take 10) ∧
    (∀ (m : Char) (items : List (List Char)), (m = '-' ∨ m = '*') → items ≠ [] →
      (∀ it ∈ items, tameLine (m :: ' ' :: it) ∧ pyStrip (' ' :: it) = it ∧
        '\n' ∉ (m :: ' ' :: it)) →
      (parse_fallback_response (joinWith ['\n']
          (suggHeader :: items.map (fun it => m :: ' ' :: it)))).suggestions
        = items.take 8) ∧
    (∀ items : List (List Char),
      (∀ it ∈ items, tameLine (bulletChar :: ' ' :: it) ∧
        '\n' ∉ (bulletChar :: ' ' :: it)) →
      (parse_fallback_response (joinWith ['\n']
          (missingHeader :: items.map (fun it => bulletChar :: ' ' :: it)))).missing_keywords
        = []) := by
  refine ⟨?_, ?_, ?_, ?_, ?_⟩
  · intro m items hm htame
    have hsplit : splitChar '\n' (joinWith ['\n']
        (matchedHeader :: items.map (fun it => m :: ' ' :: it)))
        = matchedHeader :: items.map (fun it => m :: ' ' :: it) := by
      apply splitChar_joinWith '\n' _ (by simp)
      intro l hl
      rcases List.mem_cons.mp hl with rfl | hmem
      · decide
      · obtain ⟨it, hit, rfl⟩ := List.mem_map.mp hmem
        exact (htame it hit).2.2
    have hhdr : scanLine ⟨none, [], [], []⟩ matchedHeader
        = ⟨some Mode.matched, [], [], []⟩ := rfl
    have hlines : ∀ l ∈ items.map (fun it => m :: ' ' :: it),
        tameLine l ∧ bulletish l = true := by
      intro l hl
      obtain ⟨it, hit, rfl⟩ := List.mem_map.mp hl
      exact ⟨(htame it hit).1, by rcases hm with rfl | rfl <;> rfl⟩
    have hmap : (items.map (fun it => m :: ' ' :: it)).map (fun l => pyStrip (l.drop 1))
        = items := by
      rw [List.map_map]
      have hcong : items.map ((fun l => pyStrip (l.drop 1)) ∘ (fun it => m :: ' ' :: it))
          = items.map id :=
        List.map_congr_left (fun it hit => (htame it hit).2.1)
      rw [hcong, List.map_id]
    simp only [parse_fallback_response, hsplit, List.foldl_cons, hhdr]
    rw [scan_bullet_collect_matched (items.map (fun it => m :: ' ' :: it))
        ⟨some Mode.matched, [], [], []⟩ rfl hlines]
    rw [hmap]
    simp
  · intro m items hm htame
    have hsplit : splitChar '\n' (joinWith ['\n']
        (missingHeader :: items.map (fun it => m :: ' ' :: it)))
        = missingHeader :: items.map (fun it => m :: ' ' :: it) := by
      apply splitChar_joinWith '\n' _ (by simp)
      intro l hl
      rcases List.mem_cons.mp hl with rfl | hmem
      · decide
      · obtain ⟨it, hit, rfl⟩ := List.mem_map.mp hmem
        exact (htame it hit).2.2
    have hhdr : scanLine ⟨none, [], [], []⟩ missingHeader
        = ⟨some Mode.missing, [], [], []⟩ := rfl
    have hlines : ∀ l ∈ items.map (fun it => m :: ' ' :: it),
        tameLine l ∧ bulletish l = true := by
      intro l hl
      obtain ⟨it, hit, rfl⟩ := List.mem_map.mp hl
      exact ⟨(htame it hit).1, by rcases hm with rfl | rfl <;> rfl⟩
    have hmap : (items.map (fun it => m :: ' ' :: it)).map (fun l => pyStrip (l.drop 1))
        = items := by
      rw [List.map_map]
      have hcong : items.map ((fun l => pyStrip (l.drop 1)) ∘ (fun it => m :: ' ' :: it))
          = items.map id :=
        List.map_congr_left (fun it hit => (htame it hit).2.1)
      rw [hcong, List.map_id]
    simp only [parse_fallback_response, hsplit, List.foldl_cons, hhdr]
    rw [scan_bullet_collect_missing (items.map (fun it => m :: ' ' :: it))
        ⟨some Mode.missing, [], [], []⟩ rfl hlines]
    rw [hmap]
    simp
  · intro items htame
    have hsplit : splitChar '\n' (joinWith ['\n']
        (missingHeader :: items.map (fun it => mojibakeBullet ++ ' ' :: it)))
        = missingHeader :: items.map (fun it => mojibakeBullet ++ ' ' :: it) := by
      apply splitChar_joinWith '\n' _ (by simp)
      intro l hl
      rcases List.mem_cons.mp hl with rfl | hmem
      · decide
      · obtain ⟨it, hit, rfl⟩ := List.mem_map.mp hmem
        exact (htame it hit).2.2
    have hhdr : scanLine ⟨none, [], [], []⟩ missingHeader
        = ⟨some Mode.missing, [], [], []⟩ := rfl
    have hlines : ∀ l ∈ items.map (fun it => mojibakeBullet ++ ' ' :: it),
        tameLine l ∧ bulletish l = true := by
      intro l hl
      obtain ⟨it, hit, rfl⟩ := List.mem_map.mp hl
      exact ⟨(htame it hit).1, rfl⟩
    have hmap : (items.map (fun it => mojibakeBullet ++ ' ' :: it)).map
          (fun l => pyStrip (l.drop 1))
        = items.map (fun it => mojibakeBullet.drop 1 ++ ' ' :: it) := by
      rw [List.map_map]
      exact List.map_congr_left (fun it hit => (htame it hit).2.1)
    simp only [parse_fallback_response, hsplit, List.foldl_cons, hhdr]
    rw [scan_bullet_collect_missing (items.map (fun it => mojibakeBullet ++ ' ' :: it))
        ⟨some Mode.missing, [], [], []⟩ rfl hlines]
    rw [hmap]
    simp
  · intro m items hm hne htame
    have hsplit : splitChar '\n' (joinWith ['\n']
        (suggHeader :: items.map (fun it => m :: ' ' :: it)))
        = suggHeader :: items.map (fun it => m :: ' ' :: it) := by
      apply splitChar_joinWith '\n' _ (by simp)
      intro l hl
      rcases List.mem_cons.mp hl with rfl | hmem
      · decide
      · obtain ⟨it, hit, rfl⟩ := List.mem_map.mp hmem
        exact (htame it hit).2.2
    have hhdr : scanLine ⟨none, [], [], []⟩ suggHeader
        = ⟨some Mode.sugg, [], [], []⟩ := rfl
    have hlines : ∀ l ∈ items.map (fun it => m :: ' ' :: it),
        tameLine l ∧ bulletish l = true := by
      intro l hl
      obtain ⟨it, hit, rfl⟩ := List.mem_map.mp hl
      exact ⟨(htame it hit).1, by rcases hm with rfl | rfl <;> rfl⟩
    have hmap : (items.map (fun it => m :: ' ' :: it)).map (fun l => pyStrip (l.drop 1))
        = items := by
      rw [List.map_map]
      have hcong : items.map ((fun l => pyStrip (l.drop 1)) ∘ (fun it => m :: ' ' :: it))
          = items.map id :=
        List.map_congr_left (fun it hit => (htame it hit).2.1)
      rw [hcong, List.map_id]
    simp only [parse_fallback_response, hsplit, List.foldl_cons, hhdr]
    rw [scan_bullet_collect_sugg (items.map (fun it => m :: ' ' :: it))
        ⟨some Mode.sugg, [], [], []⟩ rfl hlines]
    cases items with
    | nil => exact absurd rfl hne
    | cons a t =>
        rw [hmap]
        simp
  · intro items htame
    have hsplit : splitChar '\n' (joinWith ['\n']
        (missingHeader :: items.map (fun it => bulletChar :: ' ' :: it)))
        = missingHeader :: items.map (fun it => bulletChar :: ' ' :: it) := by
      apply splitChar_joinWith '\n' _ (by simp)
      intro l hl
      rcases List.mem_cons.mp hl with rfl | hmem
      · decide
      · obtain ⟨it, hit, rfl⟩ := List.mem_map.mp hmem
        exact (htame it hit).2
    have hhdr : scanLine ⟨none, [], [], []⟩ missingHeader
        = ⟨some Mode.missing, [], [], []⟩ := rfl
    simp only [parse_fallback_response, hsplit, List.foldl_cons, hhdr]
    rw [scan_bullet_lines_ignored items ⟨some Mode.missing, [], [], []⟩
      (fun it hit => (htame it hit).1)]

/-- Witness for C4's amended claim: eleven dash-bulleted items after a
"Matched Keywords:" line are collected capped at 10; star bullets
populate missing; a mis-encoded-bullet line is collected (with its
two-character remnant); dash bullets after "Suggestions:" are collected
into suggestions; true bullets are not collected. -/
theorem fallback_bullets_amended_witness :
    (parse_fallback_response (joinWith ['\n'] (matchedHeader ::
        (((List.range 11).map natStr)).map (fun it => '-' :: ' ' :: it)))).matched_keywords
      = ((List.range 11).map natStr).take 10 ∧
    (parse_fallback_response (joinWith ['\n'] (missingHeader ::
        ([(("AWS").toList), (("Docker").toList)]).map (fun it => '*' :: ' ' :: it)))).missing_keywords
      = ([(("AWS").toList), (("Docker").toList)]).take 10 ∧
    (parse_fallback_response (joinWith ['\n'] (missingHeader ::
        ([(("AWS").toList)]).map (fun it => mojibakeBullet ++ ' ' :: it)))).missing_keywords
      = (([(("AWS").toList)]).map (fun it => mojibakeBullet.drop 1 ++ ' ' :: it)).take 10 ∧
    (parse_fallback_response (joinWith ['\n'] (suggHeader ::
        ([(("Add AWS").toList), (("Use bullets").toList)]).map (fun it => '-' :: ' ' :: it)))).suggestions
      = ([(("Add AWS").toList), (("Use bullets").toList)]).take 8 ∧
    (parse_fallback_response (joinWith ['\n'] (missingHeader ::
        ([(("AWS").toList), (("Docker").toList)]).map (fun it => bulletChar :: ' ' :: it)))).missing_keywords
      = [] :=
  ⟨fallback_bullets_amended.1 '-' ((List.range 11).map natStr) (Or.inl rfl) (by decide),
   fallback_bullets_amended.2.1 '*' [(("AWS").toList), (("Docker").toList)] (Or.inr rfl) (by decide),
   fallback_bullets_amended.2.2.1 [(("AWS").toList)] (by decide),
   fallback_bullets_amended.2.2.2.1 '-' [(("Add AWS").toList), (("Use bullets").toList)]
     (Or.inl rfl) (by decide) (by decide),
   fallback_bullets_amended.2.2.2.2 [(("AWS").toList), (("Docker").toList)] (by decide)⟩

end ResumeATS
